import Mathlib

/-!
Verification development for the pg-mcp catalog-introspection query engine.

The repository's core is a set of parameterized SQL queries over PostgreSQL
system catalogs (`pg_constraint`, `pg_class`, `pg_namespace`, `pg_index`,
`pg_attribute`, `pg_am`) and `information_schema` views, plus a document
assembler (`db_info`) that nests the results, and a sampling query builder
(`get_sample_data`).

This file gives a shallow embedding: the catalog state is a `Database` value
holding the base relations as lists plus oracle functions for the PostgreSQL
built-ins the queries call (`obj_description`, `col_description`,
`pg_get_constraintdef`, `pg_get_indexdef`, `::regclass` casts,
`pg_stat_get_tuples_inserted`).  Each SQL query in
`server/resources/schema.py` and `app/resources/data.py` is translated into a
Lean function over `Database`, following the query text join-for-join:

* `JOIN`s on catalog oids are modelled as `List.find?` lookups (catalog oids
  are unique keys in PostgreSQL; the well-formedness hypotheses of the
  theorems state the uniqueness where a proof depends on it);
* `LEFT JOIN LATERAL unnest(arr) WITH ORDINALITY ... ON TRUE` is modelled by
  `lateralKeyRows`: the 1-based enumeration of the key array, joined to
  `pg_attribute`, with the single all-NULL row when the array is empty or
  NULL (both modelled as `[]`), exactly as SQL left-join semantics dictate;
* `ARRAY_AGG(x ORDER BY k)` over a group is modelled by sorting the group's
  rows by `k` (stably, NULLS LAST) and mapping out `x`; `ARRAY_AGG` does not
  skip NULLs, so the element type is `Option`;
* `GROUP BY` on a constraint/index identity is modelled by producing one
  output row per catalog entry (faithful when the grouping keys are distinct,
  which the well-formedness hypotheses state);
* SQL `LIKE` is modelled by a recursive matcher `likeMatch` over the literal
  pattern appearing in the query text.

The Python dict/list structures built by `db_info` are modelled by the
JSON-like type `JValue`, keeping key insertion order.
-/

/-- A JSON-shaped plain value, modelling the Python dict/list/scalar
structures returned by the resource handlers.  Object fields keep insertion
order, as Python dicts do. -/
inductive JValue where
  | null : JValue
  | bool : Bool → JValue
  | int : Int → JValue
  | str : String → JValue
  | arr : List JValue → JValue
  | obj : List (String × JValue) → JValue

/-- Render an optional string as a JSON value (`None` becomes `null`). -/
def jOptStr : Option String → JValue
  | none => JValue.null
  | some s => JValue.str s

/-- Field lookup in a `JValue` object (first binding wins), `none` when the
key is absent or the value is not an object. -/
def jGet : JValue → String → Option JValue
  | JValue.obj fs, k => (fs.find? (fun p => p.1 == k)).map (fun p => p.2)
  | _, _ => none

/-- Element lookup in a `JValue` array. -/
def jIdx : JValue → Nat → Option JValue
  | JValue.arr xs, i => xs[i]?
  | _, _ => none

/-- A row of `pg_namespace`. -/
structure PgNamespace where
  oid : Nat
  nspname : String
deriving DecidableEq

/-- A row of `pg_class` (the fields the queries read).  `reltuples` is a
float4 in PostgreSQL; it is modelled as `Int` since no claim depends on
fractional values. -/
structure PgClass where
  oid : Nat
  relname : String
  relnamespace : Nat
  relam : Nat
  relpages : Int
  reltuples : Int
deriving DecidableEq

/-- A row of `pg_attribute` (the fields the queries read).  `attnum` is an
int2 in PostgreSQL (0 never occurs in `pg_attribute` but does occur in
`pg_index.indkey` for expression columns), hence `Int`. -/
structure PgAttribute where
  attrelid : Nat
  attnum : Int
  attname : String
deriving DecidableEq

/-- A row of `pg_constraint` (the fields the queries read).  `conkey` and
`confkey` are nullable int2 arrays in PostgreSQL; a NULL array and an empty
array behave identically under `unnest` (zero rows), so both are modelled
as `[]`.  `confrelid` is 0 for non-foreign-key constraints, as in the
catalog. -/
structure PgConstraint where
  oid : Nat
  conname : String
  contype : Char
  connamespace : Nat
  conrelid : Nat
  confrelid : Nat
  conkey : List Int
  confkey : List Int
deriving DecidableEq

/-- A row of `pg_index` (the fields the queries read). -/
structure PgIndex where
  indexrelid : Nat
  indrelid : Nat
  indkey : List Int
  indisunique : Bool
  indisprimary : Bool
  indisexclusion : Bool
  indimmediate : Bool
  indisclustered : Bool
  indisvalid : Bool
deriving DecidableEq

/-- A row of `pg_am`. -/
structure PgAm where
  oid : Nat
  amname : String
deriving DecidableEq

/-- A row of `information_schema.tables` (the fields the queries read). -/
structure ISTable where
  table_schema : String
  table_name : String
  table_type : String
deriving DecidableEq

/-- A row of `information_schema.columns` (the fields the queries read).
`is_nullable` is the SQL-standard `YES`/`NO` string. -/
structure ISColumn where
  table_schema : String
  table_name : String
  column_name : String
  data_type : String
  is_nullable : String
  column_default : Option String
  ordinal_position : Nat
deriving DecidableEq

/-- The catalog state one connection observes: the base relations the queries
read, plus oracles for the PostgreSQL built-in functions they call.
`regclassOid` models `'"schema"."table"'::regclass::oid` applied to the
string produced by `format`; `tuplesInserted` models
`pg_stat_get_tuples_inserted`. -/
structure Database where
  namespaces : List PgNamespace
  classes : List PgClass
  attributes : List PgAttribute
  constraints : List PgConstraint
  indexes : List PgIndex
  ams : List PgAm
  schemata : List String
  isTables : List ISTable
  isColumns : List ISColumn
  objDescription : Nat → Option String
  colDescription : Nat → Nat → Option String
  regclassOid : String → Nat
  tuplesInserted : Nat → Int
  getConstraintDef : Nat → String
  getIndexDef : Nat → String
  getIndexDefCol : Nat → Nat → String

/-- SQL `LIKE` pattern matching over character lists: `%` matches any
sequence, `_` matches any single character, anything else matches itself.
No escape character appears in the repository's patterns. -/
def likeMatch : List Char → List Char → Bool
  | [], cs => cs.isEmpty
  | '%' :: ps, cs => cs.tails.any (fun rest => likeMatch ps rest)
  | '_' :: ps, _ :: cs => likeMatch ps cs
  | '_' :: _, [] => false
  | p :: ps, c :: cs => p == c && likeMatch ps cs
  | _ :: _, [] => false

/-- SQL `LIKE` on strings. -/
def likeMatchS (pat s : String) : Bool :=
  likeMatch pat.toList s.toList

/-- Models `format('"%s"."%s"', schema, table)`. -/
def fmtQual (schema table : String) : String :=
  "\"" ++ schema ++ "\".\"" ++ table ++ "\""

/-- `unnest(arr) WITH ORDINALITY` starting at ordinal `n` (SQL ordinality is
1-based; callers pass 1). -/
def unnestOrd (n : Nat) : List Int → List (Nat × Int)
  | [] => []
  | a :: l => (n, a) :: unnestOrd (n + 1) l

/-- SQL left-join null-extension: a join that found no partner still emits
one row, with NULL on the right side. -/
def leftJoinOpt : List α → List (Option α)
  | [] => [none]
  | l => l.map some

/-- The names of the `pg_attribute` rows matching `(attrelid, attnum)`; the
join target of the per-key attribute lookups. -/
def attMatches (db : Database) (relOid : Nat) (k : Int) : List String :=
  (db.attributes.filter (fun a => a.attrelid == relOid && a.attnum == k)).map
    (fun a => a.attname)

/-- The attribute name the per-key lookup resolves to when the catalog is
well formed (`none` when the key number dangles). -/
def attnameAt (db : Database) (relOid : Nat) (k : Int) : Option String :=
  (attMatches db relOid k).head?

/-- `LEFT JOIN LATERAL unnest(key) WITH ORDINALITY AS u(attnum, attposition)
ON TRUE` followed by `LEFT JOIN pg_attribute ON attrelid = relOid AND
attnum = u.attnum`: one `(attposition, attname)` pair per joined row, the
single all-NULL row when the key array is empty or NULL. -/
def lateralKeyRows (db : Database) (relOid : Nat) (key : List Int) :
    List (Option Nat × Option String) :=
  match key with
  | [] => [(none, none)]
  | _ :: _ =>
    (unnestOrd 1 key).flatMap (fun ik =>
      (leftJoinOpt (attMatches db relOid ik.2)).map (fun nm => (some ik.1, nm)))

/-- `ORDER BY` comparison on a nullable sort key: ascending, NULLS LAST
(PostgreSQL's default). -/
def optPosLE : Option Nat → Option Nat → Bool
  | _, none => true
  | none, some _ => false
  | some x, some y => x ≤ y

/-- `ARRAY_AGG(attname ORDER BY attposition)` over one group of
`(attposition, attname)` rows: sort by position, map out the name.
`ARRAY_AGG` keeps NULL elements. -/
def aggNamesByPos (rows : List (Option Nat × Option String)) :
    List (Option String) :=
  (List.insertionSort (fun a b => optPosLE a.1 b.1 = true) rows).map
    (fun p => p.2)

/-- String comparison backing `ORDER BY` on name columns. -/
def strLE (a b : String) : Bool :=
  (compare a b).isLE

/-- Output row of the schemas query (`db_info` lines 19-29 and
`list_schemas` lines 202-212 share this shape). -/
structure SchemaRow where
  schema_name : String
  description : Option String
deriving DecidableEq

/-- Output row of the tables query inside `db_info` (lines 46-56). -/
structure TableRow where
  table_name : String
  description : Option String
  row_count : Int
deriving DecidableEq

/-- Output row of the columns query (`db_info` lines 74-86 and
`get_table_columns` lines 234-246 share this shape). -/
structure ColumnRow where
  column_name : String
  data_type : String
  is_nullable : String
  column_default : Option String
  description : Option String
deriving DecidableEq

/-- Output row of the constraints query inside `db_info` (lines 90-119). -/
structure ConstraintRowDb where
  constraint_name : String
  constraint_type : Char
  constraint_type_desc : String
  column_names : List (Option String)
deriving DecidableEq

/-- Output row of `get_table_constraints` (lines 289-329). -/
structure FacetConstraintRow where
  constraint_name : String
  constraint_type : Char
  constraint_type_desc : String
  description : Option String
  definition : String
  referenced_table : Option String
  column_names : List (Option String)
deriving DecidableEq

/-- Output row of the foreign-keys query inside `db_info` (lines 145-178). -/
structure ForeignKeyRow where
  constraint_name : String
  column_names : List (Option String)
  referenced_schema : String
  referenced_table : String
  referenced_columns : List (Option String)
deriving DecidableEq

/-- Output row of `get_table_indexes` (lines 252-283). -/
structure IndexRow where
  index_name : String
  index_definition : String
  description : Option String
  index_type : String
  column_names : List (Option String)
  is_unique : Bool
  is_primary : Bool
  is_exclusion : Bool
deriving DecidableEq

/-- Output row of `get_index_details` (lines 335-373).  An element of
`column_expressions` is NULL when the ordinality is NULL
(`pg_get_indexdef(oid, NULL, false)` is NULL). -/
structure IndexDetailRow where
  index_name : String
  index_definition : String
  description : Option String
  index_type : String
  is_unique : Bool
  is_primary : Bool
  is_exclusion : Bool
  is_immediate : Bool
  is_clustered : Bool
  is_valid : Bool
  pages : Int
  rows : Int
  column_names : List (Option String)
  column_expressions : List (Option String)
deriving DecidableEq

/-- Output row of `get_constraint_details` (lines 379-427). -/
structure ConstraintDetailRow where
  constraint_name : String
  constraint_type : Char
  constraint_type_desc : String
  description : Option String
  definition : String
  referenced_table : Option String
  column_names : List (Option String)
  referenced_columns : Option (List (Option String))
deriving DecidableEq

/-- The `CASE` expression mapping `contype` codes to labels in the
constraints query inside `db_info` (lines 94-100): only `p`, `u`, `f`, `c`
have branches; everything else (including `t` and `x`) falls to `OTHER`. -/
def contypeDescDbInfo (c : Char) : String :=
  if c = 'p' then "PRIMARY KEY"
  else if c = 'u' then "UNIQUE"
  else if c = 'f' then "FOREIGN KEY"
  else if c = 'c' then "CHECK"
  else "OTHER"

/-- The `CASE` expression mapping `contype` codes to labels in
`get_table_constraints` (lines 293-301); the identical `CASE` text also
appears in `get_constraint_details` (lines 383-391). -/
def contypeDescFacet (c : Char) : String :=
  if c = 'p' then "PRIMARY KEY"
  else if c = 'u' then "UNIQUE"
  else if c = 'f' then "FOREIGN KEY"
  else if c = 'c' then "CHECK"
  else if c = 't' then "TRIGGER"
  else if c = 'x' then "EXCLUSION"
  else "OTHER"

/-- The `referenced_table` `CASE` of the constraint facet/detail queries:
`LEFT JOIN pg_class ref_table ON ref_table.oid = c.confrelid`, then for
foreign keys `(SELECT nspname FROM pg_namespace WHERE oid =
ref_table.relnamespace) || '.' || ref_table.relname` (NULL when either side
is NULL), else NULL. -/
def refTableName (db : Database) (c : PgConstraint) : Option String :=
  if c.contype = 'f' then
    match db.classes.find? (fun rc => rc.oid == c.confrelid) with
    | some rc =>
      (db.namespaces.find? (fun n => n.oid == rc.relnamespace)).map
        (fun n => n.nspname ++ "." ++ rc.relname)
    | none => none
  else none

/-- The `WHERE` filter of the schemas query: `schema_name NOT IN
('pg_catalog', 'information_schema', 'pg_toast') AND schema_name NOT LIKE
'pg_%'` (note that `_` is a `LIKE` wildcard). -/
def schemaAllowed (n : String) : Bool :=
  !(n == "pg_catalog" || n == "information_schema" || n == "pg_toast") &&
    !(likeMatchS ("pg_%") n)

/-- The schemas query of `db_info` (lines 19-29): `information_schema.schemata`
inner-joined to `pg_namespace` on the name for `obj_description`, filtered to
non-system schemas, `ORDER BY schema_name`. -/
def dbInfoSchemasQuery (db : Database) : List SchemaRow :=
  List.insertionSort (fun a b => strLE a.schema_name b.schema_name = true)
    ((db.schemata.flatMap (fun s =>
        (db.namespaces.filter (fun ns => ns.nspname == s)).map (fun ns =>
          ⟨s, db.objDescription ns.oid⟩))).filter
      (fun r => schemaAllowed r.schema_name))

/-- `list_schemas` (lines 202-212): textually the same query as the schemas
query of `db_info`. -/
def list_schemas (db : Database) : List SchemaRow :=
  List.insertionSort (fun a b => strLE a.schema_name b.schema_name = true)
    ((db.schemata.flatMap (fun s =>
        (db.namespaces.filter (fun ns => ns.nspname == s)).map (fun ns =>
          ⟨s, db.objDescription ns.oid⟩))).filter
      (fun r => schemaAllowed r.schema_name))

/-- The tables query of `db_info` (lines 46-56): base tables of the given
schema from `information_schema.tables`, with comment and inserted-tuple
statistics resolved through `format(...)::regclass::oid`, `ORDER BY
table_name`. -/
def dbInfoTablesQuery (db : Database) (schema : String) : List TableRow :=
  List.insertionSort (fun a b => strLE a.table_name b.table_name = true)
    ((db.isTables.filter (fun x =>
        x.table_schema == schema && x.table_type == "BASE TABLE")).map
      (fun x =>
        ⟨x.table_name,
         db.objDescription (db.regclassOid (fmtQual x.table_schema x.table_name)),
         db.tuplesInserted (db.regclassOid (fmtQual x.table_schema x.table_name))⟩))

/-- Renders one `information_schema.columns` row as the columns query's
output row; the per-column comment is resolved through
`col_description(format(...)::regclass::oid, ordinal_position)`. -/
def columnRowOf (db : Database) (c : ISColumn) : ColumnRow :=
  ⟨c.column_name, c.data_type, c.is_nullable, c.column_default,
   db.colDescription (db.regclassOid (fmtQual c.table_schema c.table_name))
     c.ordinal_position⟩

/-- The columns query of `db_info` (lines 74-86):
`information_schema.columns` filtered to the (schema, table), `ORDER BY
ordinal_position`. -/
def dbInfoColumnsQuery (db : Database) (schema table : String) :
    List ColumnRow :=
  (List.insertionSort (fun a b => a.ordinal_position ≤ b.ordinal_position)
      (db.isColumns.filter (fun c =>
        c.table_schema == schema && c.table_name == table))).map
    (columnRowOf db)

/-- `get_table_columns` (lines 234-246): textually the same query as the
columns query of `db_info`. -/
def get_table_columns (db : Database) (schema table : String) :
    List ColumnRow :=
  (List.insertionSort (fun a b => a.ordinal_position ≤ b.ordinal_position)
      (db.isColumns.filter (fun c =>
        c.table_schema == schema && c.table_name == table))).map
    (columnRowOf db)

/-- One group of the constraints query inside `db_info` (lines 90-119):
inner joins `pg_namespace`/`pg_class` on catalog oids (lookups; oids are
unique), the `WHERE` filter on schema and table name, and the per-group
aggregation of the lateral key unnest.  `GROUP BY c.conname, c.contype`
yields one row per constraint when names are distinct per table, which the
theorems' well-formedness hypotheses state. -/
def dbInfoConstraintRow? (db : Database) (schema table : String)
    (c : PgConstraint) : Option ConstraintRowDb :=
  match db.namespaces.find? (fun n => n.oid == c.connamespace),
        db.classes.find? (fun t => t.oid == c.conrelid) with
  | some n, some t =>
    if n.nspname == schema && t.relname == table then
      some ⟨c.conname, c.contype, contypeDescDbInfo c.contype,
            aggNamesByPos (lateralKeyRows db t.oid c.conkey)⟩
    else none
  | _, _ => none

/-- The constraints query inside `db_info` (lines 90-119), `ORDER BY
c.contype, c.conname`. -/
def dbInfoConstraintsQuery (db : Database) (schema table : String) :
    List ConstraintRowDb :=
  List.insertionSort
    (fun a b =>
      (a.constraint_type.toNat < b.constraint_type.toNat ∨
        (a.constraint_type = b.constraint_type ∧
          strLE a.constraint_name b.constraint_name = true)))
    (db.constraints.filterMap (dbInfoConstraintRow? db schema table))

/-- One group of `get_table_constraints` (lines 289-329): as the `db_info`
constraints query, plus comment, rendered definition, the `referenced_table`
`CASE` and the fuller `contype` label mapping. -/
def facetConstraintRow? (db : Database) (schema table : String)
    (c : PgConstraint) : Option FacetConstraintRow :=
  match db.namespaces.find? (fun n => n.oid == c.connamespace),
        db.classes.find? (fun t => t.oid == c.conrelid) with
  | some n, some t =>
    if n.nspname == schema && t.relname == table then
      some ⟨c.conname, c.contype, contypeDescFacet c.contype,
            db.objDescription c.oid, db.getConstraintDef c.oid,
            refTableName db c,
            aggNamesByPos (lateralKeyRows db t.oid c.conkey)⟩
    else none
  | _, _ => none

/-- `get_table_constraints` (lines 289-329), `ORDER BY c.contype,
c.conname`. -/
def get_table_constraints (db : Database) (schema table : String) :
    List FacetConstraintRow :=
  List.insertionSort
    (fun a b =>
      (a.constraint_type.toNat < b.constraint_type.toNat ∨
        (a.constraint_type = b.constraint_type ∧
          strLE a.constraint_name b.constraint_name = true)))
    (db.constraints.filterMap (facetConstraintRow? db schema table))

/-- The joined row set of the foreign-keys query inside `db_info`: the two
independent `LEFT JOIN LATERAL unnest ... WITH ORDINALITY` clauses (one over
`conkey` against the constrained table's attributes, one over `confkey`
against the referenced table's attributes) form a cross product of their
rows. -/
def fkJoinRows (db : Database) (tOid refOid : Nat) (conkey confkey : List Int) :
    List ((Option Nat × Option String) × (Option Nat × Option String)) :=
  (lateralKeyRows db tOid conkey).flatMap (fun u =>
    (lateralKeyRows db refOid confkey).map (fun u2 => (u, u2)))

/-- One group of the foreign-keys query inside `db_info` (lines 145-178):
inner joins to the constrained table, the referenced table and both
namespaces, `WHERE` on schema, table and `contype = 'f'`, then the two
`ARRAY_AGG`s over the cross-joined lateral rows, one ordered by each
ordinality. -/
def dbInfoForeignKeyRow? (db : Database) (schema table : String)
    (c : PgConstraint) : Option ForeignKeyRow :=
  match db.namespaces.find? (fun n => n.oid == c.connamespace),
        db.classes.find? (fun t => t.oid == c.conrelid),
        db.classes.find? (fun rt => rt.oid == c.confrelid) with
  | some n, some t, some rt =>
    match db.namespaces.find? (fun nr => nr.oid == rt.relnamespace) with
    | some nr =>
      if n.nspname == schema && t.relname == table && c.contype == 'f' then
        some ⟨c.conname,
              (List.insertionSort (fun a b => optPosLE a.1.1 b.1.1 = true)
                  (fkJoinRows db t.oid rt.oid c.conkey c.confkey)).map
                (fun p => p.1.2),
              nr.nspname, rt.relname,
              (List.insertionSort (fun a b => optPosLE a.2.1 b.2.1 = true)
                  (fkJoinRows db t.oid rt.oid c.conkey c.confkey)).map
                (fun p => p.2.2)⟩
      else none
    | none => none
  | _, _, _ => none

/-- The foreign-keys query inside `db_info` (lines 145-178), `ORDER BY
c.conname`. -/
def dbInfoForeignKeysQuery (db : Database) (schema table : String) :
    List ForeignKeyRow :=
  List.insertionSort (fun a b => strLE a.constraint_name b.constraint_name = true)
    (db.constraints.filterMap (dbInfoForeignKeyRow? db schema table))

/-- One group of `get_table_indexes` (lines 252-283): `pg_index` joined to
its index relation, owning table, namespace and access method on catalog
oids, `WHERE` on schema and table, and the aggregation of the lateral
`indkey` unnest ordered by ordinality. -/
def indexRow? (db : Database) (schema table : String) (ix : PgIndex) :
    Option IndexRow :=
  match db.classes.find? (fun i => i.oid == ix.indexrelid),
        db.classes.find? (fun t => t.oid == ix.indrelid) with
  | some i, some t =>
    match db.namespaces.find? (fun n => n.oid == t.relnamespace),
          db.ams.find? (fun am => am.oid == i.relam) with
    | some n, some am =>
      if n.nspname == schema && t.relname == table then
        some ⟨i.relname, db.getIndexDef i.oid, db.objDescription i.oid,
              am.amname,
              aggNamesByPos (lateralKeyRows db t.oid ix.indkey),
              ix.indisunique, ix.indisprimary, ix.indisexclusion⟩
      else none
    | _, _ => none
  | _, _ => none

/-- `get_table_indexes` (lines 252-283), `ORDER BY i.relname`. -/
def get_table_indexes (db : Database) (schema table : String) :
    List IndexRow :=
  List.insertionSort (fun a b => strLE a.index_name b.index_name = true)
    (db.indexes.filterMap (indexRow? db schema table))

/-- One group of `get_index_details` (lines 335-373): the `get_table_indexes`
joins plus the `WHERE i.relname = $3` filter, the extra `pg_index` flags,
planner statistics and the per-position rendered expressions
`pg_get_indexdef(i.oid, k.i, false)` (NULL at a NULL ordinality). -/
def indexDetailRow? (db : Database) (schema table index : String)
    (ix : PgIndex) : Option IndexDetailRow :=
  match db.classes.find? (fun i => i.oid == ix.indexrelid),
        db.classes.find? (fun t => t.oid == ix.indrelid) with
  | some i, some t =>
    match db.namespaces.find? (fun n => n.oid == t.relnamespace),
          db.ams.find? (fun am => am.oid == i.relam) with
    | some n, some am =>
      if n.nspname == schema && t.relname == table && i.relname == index then
        some ⟨i.relname, db.getIndexDef i.oid, db.objDescription i.oid,
              am.amname, ix.indisunique, ix.indisprimary, ix.indisexclusion,
              ix.indimmediate, ix.indisclustered, ix.indisvalid,
              i.relpages, i.reltuples,
              aggNamesByPos (lateralKeyRows db t.oid ix.indkey),
              (List.insertionSort (fun a b => optPosLE a.1 b.1 = true)
                  (lateralKeyRows db t.oid ix.indkey)).map
                (fun p => p.1.map (db.getIndexDefCol i.oid))⟩
      else none
    | _, _ => none
  | _, _ => none

/-- `get_index_details` (lines 335-373); no `ORDER BY`. -/
def get_index_details (db : Database) (schema table index : String) :
    List IndexDetailRow :=
  db.indexes.filterMap (indexDetailRow? db schema table index)

/-- The `confkey`-side lateral of `get_constraint_details` (lines 417-420):
its `ON` clauses are conditional on `c.contype = 'f'`, so a non-foreign-key
constraint gets the single null-extended row and no row multiplication. -/
def detailRefSide (db : Database) (c : PgConstraint) :
    List (Option Nat × Option String) :=
  if c.contype = 'f' then lateralKeyRows db c.confrelid c.confkey
  else [(none, none)]

/-- One group of `get_constraint_details` (lines 379-427): the facet
constraint row plus `WHERE c.conname = $3` and the `referenced_columns`
`CASE` (the aggregate over the `confkey` lateral for foreign keys, NULL
otherwise).  The `conkey` and `confkey` laterals cross-join exactly as in
the `db_info` foreign-keys query. -/
def constraintDetailRow? (db : Database) (schema table constraint : String)
    (c : PgConstraint) : Option ConstraintDetailRow :=
  match db.namespaces.find? (fun n => n.oid == c.connamespace),
        db.classes.find? (fun t => t.oid == c.conrelid) with
  | some n, some t =>
    if n.nspname == schema && t.relname == table && c.conname == constraint then
      some ⟨c.conname, c.contype, contypeDescFacet c.contype,
            db.objDescription c.oid, db.getConstraintDef c.oid,
            refTableName db c,
            (List.insertionSort (fun a b => optPosLE a.1.1 b.1.1 = true)
                ((lateralKeyRows db t.oid c.conkey).flatMap (fun u =>
                  (detailRefSide db c).map (fun u2 => (u, u2))))).map
              (fun p => p.1.2),
            if c.contype = 'f' then
              some ((List.insertionSort (fun a b => optPosLE a.2.1 b.2.1 = true)
                  ((lateralKeyRows db t.oid c.conkey).flatMap (fun u =>
                    (detailRefSide db c).map (fun u2 => (u, u2))))).map
                (fun p => p.2.2))
            else none⟩
    else none
  | _, _ => none

/-- `get_constraint_details` (lines 379-427); no `ORDER BY`. -/
def get_constraint_details (db : Database) (schema table constraint : String) :
    List ConstraintDetailRow :=
  db.constraints.filterMap (constraintDetailRow? db schema table constraint)

/-- One entry of a table's `columns` list in the `db_info` document
(lines 123-142): the column row rendered with the renamed keys, plus the
`constraints` labels computed by scanning, for each constraint fetched for
the table, whether this column's name appears in its `column_names` list
(Python `column_name in constraint.get('column_names', [])`). -/
def columnJson (constraints : List ConstraintRowDb) (c : ColumnRow) : JValue :=
  JValue.obj
    [("name", JValue.str c.column_name),
     ("type", JValue.str c.data_type),
     ("nullable", JValue.bool (c.is_nullable == "YES")),
     ("default", jOptStr c.column_default),
     ("description", jOptStr c.description),
     ("constraints",
      JValue.arr
        ((constraints.filter (fun k =>
            k.column_names.contains (some c.column_name))).map
          (fun k => JValue.str k.constraint_type_desc)))]

/-- One entry of a table's `foreign_keys` list in the `db_info` document
(lines 181-189). -/
def fkJson (fk : ForeignKeyRow) : JValue :=
  JValue.obj
    [("name", JValue.str fk.constraint_name),
     ("columns", JValue.arr (fk.column_names.map jOptStr)),
     ("referenced_schema", JValue.str fk.referenced_schema),
     ("referenced_table", JValue.str fk.referenced_table),
     ("referenced_columns", JValue.arr (fk.referenced_columns.map jOptStr))]

/-- One `table_info` entry of the `db_info` document (lines 60-192): the
dict is created with keys `name`, `description`, `row_count`, `columns`,
`foreign_keys` and the two lists are then filled from the columns,
constraints and foreign-keys queries for this table. -/
def tableJson (db : Database) (schema : String) (t : TableRow) : JValue :=
  JValue.obj
    [("name", JValue.str t.table_name),
     ("description", jOptStr t.description),
     ("row_count", JValue.int t.row_count),
     ("columns",
      JValue.arr
        ((dbInfoColumnsQuery db schema t.table_name).map
          (columnJson (dbInfoConstraintsQuery db schema t.table_name)))),
     ("foreign_keys",
      JValue.arr
        ((dbInfoForeignKeysQuery db schema t.table_name).map fkJson))]

/-- One `schema_info` entry of the `db_info` document (lines 39-43 and
191-195). -/
def schemaJson (db : Database) (s : SchemaRow) : JValue :=
  JValue.obj
    [("name", JValue.str s.schema_name),
     ("description", jOptStr s.description),
     ("tables",
      JValue.arr
        ((dbInfoTablesQuery db s.schema_name).map (tableJson db s.schema_name)))]

/-- `db_info` (lines 12-197): the full nested database document,
`{"schemas": [...]}`. -/
def db_info (db : Database) : JValue :=
  JValue.obj
    [("schemas", JValue.arr ((dbInfoSchemasQuery db).map (schemaJson db)))]

/-- The query a call of `get_sample_data` issues: the SQL text and the bound
parameters. -/
structure SampleQuery where
  text : String
  params : List Int
deriving DecidableEq

/-- `get_sample_data` (`app/resources/data.py` lines 6-20): the schema and
table names are passed through the engine's `quote_ident` (modelled as the
oracle `quoteIdent`, fetched via `SELECT quote_ident($1)` with the raw name
as a bound parameter), the quoted results are interpolated into the SQL
text, and the limit is passed as the single bound parameter `$1`. -/
def get_sample_data (quoteIdent : String → String) (schema table : String)
    (limit : Int) : SampleQuery :=
  ⟨"SELECT * FROM " ++ quoteIdent schema ++ "." ++ quoteIdent table ++
     " LIMIT $1",
   [limit]⟩

/-- A `description` value in the `db_info` document is a JSON null or a
string. -/
def jNullOrStr : JValue → Bool
  | JValue.null => true
  | JValue.str _ => true
  | _ => false

/-- Shape stated by claim C10 for one table entry of the `db_info` document:
exactly the keys `name`, `description`, `row_count`, `columns`,
`foreign_keys`, in that order, with `columns` and `foreign_keys` always
lists (empty lists when empty, never absent). -/
def tableEntryShape : JValue → Bool
  | JValue.obj
      [("name", JValue.str _), ("description", d),
       ("row_count", JValue.int _), ("columns", JValue.arr _),
       ("foreign_keys", JValue.arr _)] => jNullOrStr d
  | _ => false

/-- Shape stated by claim C10 for one schema entry: exactly the keys `name`,
`description`, `tables`, with `tables` always a list of well-shaped table
entries. -/
def schemaEntryShape : JValue → Bool
  | JValue.obj
      [("name", JValue.str _), ("description", d),
       ("tables", JValue.arr ts)] => jNullOrStr d && ts.all tableEntryShape
  | _ => false

/-- Shape stated by claim C10 for the whole document: a mapping with the
single top-level key `schemas`, holding a list of well-shaped schema
entries. -/
def dbInfoDocShape : JValue → Bool
  | JValue.obj [("schemas", JValue.arr ss)] => ss.all schemaEntryShape
  | _ => false

/-- The number of rows `LEFT JOIN LATERAL unnest(key) WITH ORDINALITY ... ON
TRUE` contributes: one null-extended row for an empty (or NULL) array, one
row per element otherwise. -/
def keyLen (k : List Int) : Nat :=
  if k = [] then 1 else k.length

/-- A database with the given catalog relations and trivial oracles (no
comments, empty rendered definitions); used for concrete evaluations. -/
def mkDb (ns : List PgNamespace) (cls : List PgClass) (att : List PgAttribute)
    (con : List PgConstraint) (idx : List PgIndex) (ams : List PgAm)
    (sch : List String) (tbl : List ISTable) (col : List ISColumn) :
    Database :=
  ⟨ns, cls, att, con, idx, ams, sch, tbl, col,
   fun _ => none, fun _ _ => none, fun _ => 99, fun _ => 0,
   fun _ => "", fun _ => "", fun _ _ => ""⟩

/-- Schema `public` with tables `orders(o1, o2)` and `customers(c1, c2)` and
a two-column foreign key `fk_orders : orders(o1, o2) -> customers(c1, c2)`. -/
def exDbFk : Database :=
  mkDb [⟨1, "public"⟩]
    [⟨10, "orders", 1, 0, 0, 0⟩, ⟨11, "customers", 1, 0, 0, 0⟩]
    [⟨10, 1, "o1"⟩, ⟨10, 2, "o2"⟩, ⟨11, 1, "c1"⟩, ⟨11, 2, "c2"⟩]
    [⟨100, "fk_orders", 'f', 1, 10, 11, [1, 2], [1, 2]⟩]
    [] [] [] [] []

/-- Schema `public` with table `events` carrying a constraint-trigger
constraint (`contype = 't'`). -/
def exDbTrig : Database :=
  mkDb [⟨1, "public"⟩] [⟨20, "events", 1, 0, 0, 0⟩] []
    [⟨200, "trg", 't', 1, 20, 0, [], []⟩]
    [] [] [] [] []

/-- Schema `public` with table `t` carrying a check constraint referencing no
columns (`conkey` NULL, modelled `[]`) and an index `t_idx` with an empty
key array. -/
def exDbChk : Database :=
  mkDb [⟨1, "public"⟩]
    [⟨30, "t", 1, 0, 0, 0⟩, ⟨31, "t_idx", 1, 40, 0, 0⟩] []
    [⟨300, "chk", 'c', 1, 30, 0, [], []⟩]
    [⟨31, 30, [], false, false, false, true, false, true⟩]
    [⟨40, "btree"⟩] [] [] []

/-- A database whose only schema is named `pgfoo`: not one of the three
excluded names and not starting with the literal three characters `pg_`. -/
def exDbPg : Database :=
  mkDb [⟨1, "pgfoo"⟩] [] [] [] [] [] ["pgfoo"] [] []

/-- Schema `public` with base table `users(id integer not null)` and its
primary-key index `users_pkey`; no constraints rows. -/
def exDbIdx : Database :=
  mkDb [⟨1, "public"⟩]
    [⟨50, "users", 1, 0, 0, 0⟩, ⟨51, "users_pkey", 1, 40, 0, 0⟩]
    [⟨50, 1, "id"⟩] []
    [⟨51, 50, [1], true, true, false, true, false, true⟩]
    [⟨40, "btree"⟩]
    ["public"] [⟨"public", "users", "BASE TABLE"⟩]
    [⟨"public", "users", "id", "integer", "NO", none, 1⟩]

/-- The attribute relation has at most one row per `(attrelid, attnum)`;
this is the `pg_attribute` primary key, expressed as the well-formedness
hypothesis the aggregation theorems use. -/
def attrKeysDistinct (db : Database) : Prop :=
  db.attributes.Pairwise (fun a b => a.attrelid ≠ b.attrelid ∨ a.attnum ≠ b.attnum)

/-- The table's declared column count: the number of
`information_schema.columns` rows the catalog holds for the
(schema, table). -/
def declaredColumnCount (db : Database) (schema table : String) : Nat :=
  (db.isColumns.filter (fun c =>
    c.table_schema == schema && c.table_name == table)).length

/-- A concrete stand-in for the engine's `quote_ident`, used to instantiate
the sampling-query theorem: wrap in double quotes, doubling embedded
quotes. -/
def exQuoteIdent (s : String) : String :=
  "\"" ++ String.mk (s.toList.flatMap (fun ch =>
    if ch = '"' then ['"', '"'] else [ch])) ++ "\""

/-- The schema name a constraint's `connamespace` resolves to through the
detail query's `pg_namespace` join, if any. -/
def constraintSchema (db : Database) (c : PgConstraint) : Option String :=
  (db.namespaces.find? (fun x => x.oid == c.connamespace)).map
    (fun n => n.nspname)

/-- The table name a constraint's `conrelid` resolves to through the detail
query's `pg_class` join, if any. -/
def constraintTable (db : Database) (c : PgConstraint) : Option String :=
  (db.classes.find? (fun x => x.oid == c.conrelid)).map (fun t => t.relname)

/-- The name of a `pg_index` row's index relation (`indexrelid`), the value
the detail query's `WHERE i.relname = $3` filter tests, if any. -/
def indexName (db : Database) (ix : PgIndex) : Option String :=
  (db.classes.find? (fun x => x.oid == ix.indexrelid)).map (fun i => i.relname)

/-- The name of the table a `pg_index` row belongs to (`indrelid`), if
any. -/
def indexTable (db : Database) (ix : PgIndex) : Option String :=
  (db.classes.find? (fun x => x.oid == ix.indrelid)).map (fun t => t.relname)

/-- The schema name a `pg_index` row's table resolves to, if any. -/
def indexSchema (db : Database) (ix : PgIndex) : Option String :=
  ((db.classes.find? (fun x => x.oid == ix.indrelid)).bind (fun t =>
    db.namespaces.find? (fun n => n.oid == t.relnamespace))).map
    (fun n => n.nspname)

/-- Schema `public` with tables `users` and `orders`; `users` carries the
index `users_pkey` and a primary-key constraint also named `users_pkey`,
while `orders` has neither.  Requests for the name `users_pkey` scoped to
`orders` exercise the per-table scoping of the detail queries: the name
exists in the catalog, but on a different table. -/
def exDbScope : Database :=
  mkDb [⟨1, "public"⟩]
    [⟨50, "users", 1, 0, 0, 0⟩, ⟨51, "users_pkey", 1, 40, 0, 0⟩,
     ⟨60, "orders", 1, 0, 0, 0⟩]
    [⟨50, 1, "id"⟩]
    [⟨500, "users_pkey", 'p', 1, 50, 0, [1], []⟩]
    [⟨51, 50, [1], true, true, false, true, false, true⟩]
    [⟨40, "btree"⟩] ["public"]
    [⟨"public", "users", "BASE TABLE"⟩, ⟨"public", "orders", "BASE TABLE"⟩]
    []

theorem flatMap_eq_map_of_singleton {α β : Type} (l : List α) (f : α → List β)
    (g : α → β) (h : ∀ x ∈ l, f x = [g x]) : l.flatMap f = l.map g := by
  induction l with
  | nil => rfl
  | cons a t ih =>
    simp only [List.flatMap_cons, List.map_cons, h a (by simp)]
    rw [ih (fun x hx => h x (by simp [hx]))]
    rfl

theorem length_flatMap_prod {α β γ : Type} (l : List α) (m : List γ)
    (g : α → γ → β) :
    (l.flatMap (fun u => m.map (g u))).length = l.length * m.length := by
  induction l with
  | nil => simp
  | cons a t ih => simp [List.flatMap_cons, ih, Nat.succ_mul, Nat.add_comm]

theorem unnestOrd_length (l : List Int) : ∀ n, (unnestOrd n l).length = l.length := by
  induction l with
  | nil => intro n; rfl
  | cons a t ih => intro n; simp [unnestOrd, ih]

theorem unnestOrd_map_val {β : Type} (l : List Int) (f : Int → β) :
    ∀ n, (unnestOrd n l).map (fun p => f p.2) = l.map f := by
  induction l with
  | nil => intro n; rfl
  | cons a t ih => intro n; simp [unnestOrd, ih]

theorem unnestOrd_fst_ge (l : List Int) :
    ∀ n p, p ∈ unnestOrd n l → n ≤ p.1 := by
  induction l with
  | nil => intro n p hp; simp [unnestOrd] at hp
  | cons a t ih =>
    intro n p hp
    simp only [unnestOrd, List.mem_cons] at hp
    rcases hp with h | h
    · simp [h]
    · exact Nat.le_of_succ_le (ih (n + 1) p h)

theorem unnestOrd_pairwise (l : List Int) :
    ∀ n, (unnestOrd n l).Pairwise (fun a b => a.1 < b.1) := by
  induction l with
  | nil => intro n; simp [unnestOrd]
  | cons a t ih =>
    intro n
    refine List.Pairwise.cons ?_ (ih (n + 1))
    intro p hp
    exact Nat.lt_of_lt_of_le (Nat.lt_succ_self n) (unnestOrd_fst_ge t (n + 1) p hp)

theorem filter_length_le_one {α : Type} {R : α → α → Prop} {p : α → Bool}
    (l : List α) (hl : l.Pairwise R)
    (hp : ∀ a b, p a = true → p b = true → R a b → False) :
    (l.filter p).length ≤ 1 := by
  induction l with
  | nil => simp
  | cons a t ih =>
    rcases List.pairwise_cons.mp hl with ⟨ha, ht⟩
    by_cases hpa : p a = true
    · have hnil : t.filter p = [] := by
        rw [List.eq_nil_iff_forall_not_mem]
        intro b hb
        rcases List.mem_filter.mp hb with ⟨hbt, hpb⟩
        exact hp a b hpa hpb (ha b hbt)
      simp [List.filter_cons, hpa, hnil]
    · simp only [List.filter_cons, Bool.not_eq_true] at *
      simp [hpa]
      exact ih ht

theorem attMatches_length_le {db : Database} {relOid : Nat} {k : Int}
    (h : attrKeysDistinct db) : (attMatches db relOid k).length ≤ 1 := by
  unfold attMatches
  rw [List.length_map]
  refine filter_length_le_one db.attributes h ?_
  intro a b hpa hpb hR
  simp only [Bool.and_eq_true, beq_iff_eq] at hpa hpb
  rcases hR with h1 | h1
  · exact h1 (hpa.1.trans hpb.1.symm)
  · exact h1 (hpa.2.trans hpb.2.symm)

theorem leftJoinOpt_of_short {α : Type} {l : List α} (h : l.length ≤ 1) :
    leftJoinOpt l = [l.head?] := by
  match l, h with
  | [], _ => rfl
  | [x], _ => rfl

theorem lateralKeyRows_eq {db : Database} {relOid : Nat} {key : List Int}
    (hwf : attrKeysDistinct db) (hk : key ≠ []) :
    lateralKeyRows db relOid key =
      (unnestOrd 1 key).map (fun ik => (some ik.1, attnameAt db relOid ik.2)) := by
  match key, hk with
  | a :: t, _ =>
    show (unnestOrd 1 (a :: t)).flatMap _ = _
    refine flatMap_eq_map_of_singleton _ _ _ ?_
    intro ik _
    rw [leftJoinOpt_of_short (attMatches_length_le hwf)]
    rfl

theorem lateralKeyRows_length {db : Database} {relOid : Nat} (key : List Int)
    (hwf : attrKeysDistinct db) :
    (lateralKeyRows db relOid key).length = keyLen key := by
  match key with
  | [] => rfl
  | a :: t =>
    rw [lateralKeyRows_eq hwf (by simp), List.length_map, unnestOrd_length]
    rfl

theorem aggNamesByPos_length (rows : List (Option Nat × Option String)) :
    (aggNamesByPos rows).length = rows.length := by
  unfold aggNamesByPos
  rw [List.length_map, List.length_insertionSort]

theorem aggNamesByPos_of_lateral {db : Database} {relOid : Nat}
    {key : List Int} (hwf : attrKeysDistinct db) (hk : key ≠ []) :
    aggNamesByPos (lateralKeyRows db relOid key) =
      key.map (attnameAt db relOid) := by
  rw [lateralKeyRows_eq hwf hk]
  unfold aggNamesByPos
  rw [List.Sorted.insertionSort_eq]
  · rw [List.map_map]
    exact unnestOrd_map_val key (attnameAt db relOid) 1
  · refine List.Pairwise.map _ ?_ (unnestOrd_pairwise key 1)
    intro a b hab
    simp [optPosLE, Nat.le_of_lt hab]

theorem aggNamesByPos_single : aggNamesByPos [(none, none)] = [none] := rfl

theorem fkJoinRows_length {db : Database} {tOid refOid : Nat}
    (conkey confkey : List Int) (hwf : attrKeysDistinct db) :
    (fkJoinRows db tOid refOid conkey confkey).length =
      keyLen conkey * keyLen confkey := by
  unfold fkJoinRows
  rw [length_flatMap_prod, lateralKeyRows_length conkey hwf,
    lateralKeyRows_length confkey hwf]

theorem facetConstraintRow?_inv {db : Database} {s t : String}
    {c : PgConstraint} {r : FacetConstraintRow}
    (h : facetConstraintRow? db s t c = some r) :
    r.constraint_name = c.conname ∧ r.constraint_type = c.contype ∧
      r.constraint_type_desc = contypeDescFacet c.contype ∧
      r.column_names = aggNamesByPos (lateralKeyRows db c.conrelid c.conkey) := by
  unfold facetConstraintRow? at h
  split at h
  case _ n tc hn htc =>
    have hoid : tc.oid = c.conrelid := by
      have := List.find?_some htc
      simpa using this
    split at h
    · cases h
      simp [hoid]
    · cases h
  case _ => cases h

theorem dbInfoConstraintRow?_inv {db : Database} {s t : String}
    {c : PgConstraint} {r : ConstraintRowDb}
    (h : dbInfoConstraintRow? db s t c = some r) :
    r.constraint_name = c.conname ∧ r.constraint_type = c.contype ∧
      r.constraint_type_desc = contypeDescDbInfo c.contype ∧
      r.column_names = aggNamesByPos (lateralKeyRows db c.conrelid c.conkey) := by
  unfold dbInfoConstraintRow? at h
  split at h
  case _ n tc hn htc =>
    have hoid : tc.oid = c.conrelid := by
      have := List.find?_some htc
      simpa using this
    split at h
    · cases h
      simp [hoid]
    · cases h
  case _ => cases h

theorem dbInfoForeignKeyRow?_inv {db : Database} {s t : String}
    {c : PgConstraint} {r : ForeignKeyRow}
    (h : dbInfoForeignKeyRow? db s t c = some r) :
    c.contype = 'f' ∧ r.constraint_name = c.conname ∧
      r.column_names =
        (List.insertionSort (fun a b => optPosLE a.1.1 b.1.1 = true)
            (fkJoinRows db c.conrelid c.confrelid c.conkey c.confkey)).map
          (fun p => p.1.2) ∧
      r.referenced_columns =
        (List.insertionSort (fun a b => optPosLE a.2.1 b.2.1 = true)
            (fkJoinRows db c.conrelid c.confrelid c.conkey c.confkey)).map
          (fun p => p.2.2) := by
  unfold dbInfoForeignKeyRow? at h
  split at h
  case _ n tc rt hn htc hrt =>
    have hoid : tc.oid = c.conrelid := by
      have := List.find?_some htc
      simpa using this
    have hroid : rt.oid = c.confrelid := by
      have := List.find?_some hrt
      simpa using this
    split at h
    case _ nr hnr =>
      split at h
      case _ hcond =>
        simp only [Bool.and_eq_true, beq_iff_eq] at hcond
        cases h
        simp [hoid, hroid, hcond]
      case _ => cases h
    case _ => cases h
  case _ => cases h

theorem constraintDetailRow?_inv {db : Database} {s t nm : String}
    {c : PgConstraint} {r : ConstraintDetailRow}
    (h : constraintDetailRow? db s t nm c = some r) :
    r.constraint_name = c.conname ∧ r.constraint_type = c.contype ∧
      r.constraint_type_desc = contypeDescFacet c.contype ∧
      r.column_names =
        (List.insertionSort (fun a b => optPosLE a.1.1 b.1.1 = true)
            ((lateralKeyRows db c.conrelid c.conkey).flatMap (fun u =>
              (detailRefSide db c).map (fun u2 => (u, u2))))).map
          (fun p => p.1.2) ∧
      r.referenced_columns =
        (if c.contype = 'f' then
          some ((List.insertionSort (fun a b => optPosLE a.2.1 b.2.1 = true)
              ((lateralKeyRows db c.conrelid c.conkey).flatMap (fun u =>
                (detailRefSide db c).map (fun u2 => (u, u2))))).map
            (fun p => p.2.2))
        else none) := by
  unfold constraintDetailRow? at h
  split at h
  case _ n tc hn htc =>
    have hoid : tc.oid = c.conrelid := by
      have := List.find?_some htc
      simpa using this
    split at h
    · cases h
      simp [hoid]
    · cases h
  case _ => cases h

theorem indexRow?_inv {db : Database} {s t : String} {ix : PgIndex}
    {r : IndexRow} (h : indexRow? db s t ix = some r) :
    r.column_names = aggNamesByPos (lateralKeyRows db ix.indrelid ix.indkey) := by
  unfold indexRow? at h
  split at h
  case _ i tc hi htc =>
    have hoid : tc.oid = ix.indrelid := by
      have := List.find?_some htc
      simpa using this
    split at h
    case _ n am hn ham =>
      split at h
      · cases h
        simp [hoid]
      · cases h
    case _ => cases h
  case _ => cases h

theorem countP_ext {α : Type} (p q : α → Bool) (l : List α)
    (h : ∀ a, p a = q a) : l.countP p = l.countP q := by
  induction l with
  | nil => rfl
  | cons a t ih => simp [List.countP_cons, h a, ih]

theorem countP_flatMap {α β : Type} (l : List α) (f : α → List β)
    (p : β → Bool) :
    (l.flatMap f).countP p = (l.map (fun x => (f x).countP p)).sum := by
  induction l with
  | nil => rfl
  | cons a t ih => simp [List.flatMap_cons, List.countP_append, ih]

theorem count_map_eq_countP {α β : Type} [DecidableEq β] (l : List α)
    (f : α → β) (y : β) :
    (l.map f).count y = l.countP (fun x => f x == y) := by
  induction l with
  | nil => rfl
  | cons a t ih => simp [List.count_cons, List.countP_cons, ih]

theorem countP_const_true {α : Type} (l : List α) :
    l.countP (fun _ => true) = l.length := by
  induction l with
  | nil => rfl
  | cons a t ih => simp [List.countP_cons, ih]

theorem countP_const_false {α : Type} (l : List α) :
    l.countP (fun _ => false) = 0 := by
  induction l with
  | nil => rfl
  | cons a t ih => simp [List.countP_cons, ih]

theorem sum_indicator_eq_count (l : List String) (n : String) :
    (l.map (fun s => if s = n then 1 else 0)).sum = l.count n := by
  induction l with
  | nil => rfl
  | cons a t ih =>
    by_cases h : a = n <;> simp [List.count_cons, ih, h, Nat.add_comm]

/-- Claim C7: for every (schema, table) pair, the columns facet returns the
table's columns ordered by ascending ordinal position, and the length of the
returned list equals the table's declared column count. -/
theorem get_table_columns_ordered_complete (db : Database)
    (schema table : String) :
    (get_table_columns db schema table).length =
      declaredColumnCount db schema table ∧
    ∃ base : List ISColumn,
      base.Pairwise (fun a b => a.ordinal_position ≤ b.ordinal_position) ∧
      base.Perm (db.isColumns.filter (fun c =>
        c.table_schema == schema && c.table_name == table)) ∧
      get_table_columns db schema table = base.map (columnRowOf db) := by
  constructor
  · unfold get_table_columns declaredColumnCount
    rw [List.length_map, List.length_insertionSort]
  · refine ⟨List.insertionSort
      (fun a b => a.ordinal_position ≤ b.ordinal_position)
      (db.isColumns.filter (fun c =>
        c.table_schema == schema && c.table_name == table)), ?_, ?_, rfl⟩
    · haveI : IsTotal ISColumn
          (fun a b => a.ordinal_position ≤ b.ordinal_position) :=
        ⟨fun a b => Nat.le_total _ _⟩
      haveI : IsTrans ISColumn
          (fun a b => a.ordinal_position ≤ b.ordinal_position) :=
        ⟨fun _ _ _ => Nat.le_trans⟩
      exact List.sorted_insertionSort _ _
    · exact List.perm_insertionSort _ _

/-- Claim C8: `get_sample_data` builds exactly
`SELECT * FROM <quoted schema>.<quoted table> LIMIT $1` with the limit as
the sole bound parameter, and the query text depends on the caller-supplied
schema and table strings only through the engine's `quote_ident` (so no
unsanitized caller string reaches the query text). -/
theorem get_sample_data_spec (qi : String → String) (schema table : String)
    (limit : Int) :
    (get_sample_data qi schema table limit).text =
      "SELECT * FROM " ++ qi schema ++ "." ++ qi table ++ " LIMIT $1" ∧
    (get_sample_data qi schema table limit).params = [limit] ∧
    ∀ schema2 table2 : String, qi schema2 = qi schema → qi table2 = qi table →
      get_sample_data qi schema2 table2 limit =
        get_sample_data qi schema table limit := by
  refine ⟨rfl, rfl, ?_⟩
  intro schema2 table2 h1 h2
  unfold get_sample_data
  rw [h1, h2]

/-- Witness for the C8 theorem at a concrete quoting function, schema,
table and limit. -/
theorem get_sample_data_spec_witness :
    (get_sample_data exQuoteIdent ("a") ("b") 7).text =
      "SELECT * FROM " ++ exQuoteIdent ("a") ++ "." ++ exQuoteIdent ("b") ++
        " LIMIT $1" ∧
    (get_sample_data exQuoteIdent ("a") ("b") 7).params = [7] ∧
    get_sample_data exQuoteIdent ("a") ("b") 7 =
      get_sample_data exQuoteIdent ("a") ("b") 7 := by
  obtain ⟨h1, h2, h3⟩ := get_sample_data_spec exQuoteIdent ("a") ("b") 7
  exact ⟨h1, h2, h3 ("a") ("b") rfl rfl⟩

/-- Claim C9: an index-detail or constraint-detail request whose (schema,
table, name) triple matches no catalog object returns the empty row list —
the hypotheses constrain only indexes and constraints that resolve to the
given schema and table, so an index or constraint of the requested name on a
different table is permitted and the lookup is properly scoped by
schema + table + name.  Both queries read only catalog joins with
bound-parameter filters (no `::regclass` cast on caller input), so in the
embedding they are total functions: the empty list is a normal return value,
distinct from a raised query-execution error, which this embedding would
have to model as a separate failure value and does not occur. -/
theorem detail_queries_missing_name (db : Database) (schema table nm : String)
    (hix : ∀ ix ∈ db.indexes,
      indexSchema db ix = some schema → indexTable db ix = some table →
      indexName db ix ≠ some nm)
    (hco : ∀ c ∈ db.constraints,
      constraintSchema db c = some schema → constraintTable db c = some table →
      c.conname ≠ nm) :
    get_index_details db schema table nm = [] ∧
    get_constraint_details db schema table nm = [] := by
  constructor
  · unfold get_index_details
    rw [List.filterMap_eq_nil_iff]
    intro ix hmem
    unfold indexDetailRow?
    split
    case _ i tc hi htc =>
      split
      case _ n am hn ham =>
        by_cases hcond :
            (n.nspname == schema && tc.relname == table && i.relname == nm) =
              true
        · exfalso
          simp only [Bool.and_eq_true, beq_iff_eq] at hcond
          obtain ⟨⟨h1, h2⟩, h3⟩ := hcond
          refine hix ix hmem ?_ ?_ ?_
          · unfold indexSchema
            rw [htc]
            simp [hn, h1]
          · unfold indexTable
            rw [htc]
            simp [h2]
          · unfold indexName
            rw [hi]
            simp [h3]
        · rw [if_neg hcond]
      case _ => rfl
    case _ => rfl
  · unfold get_constraint_details
    rw [List.filterMap_eq_nil_iff]
    intro c hmem
    unfold constraintDetailRow?
    split
    case _ n tc hn htc =>
      by_cases hcond :
          (n.nspname == schema && tc.relname == table && c.conname == nm) =
            true
      · exfalso
        simp only [Bool.and_eq_true, beq_iff_eq] at hcond
        obtain ⟨⟨h1, h2⟩, h3⟩ := hcond
        refine hco c hmem ?_ ?_ h3
        · unfold constraintSchema
          rw [hn]
          simp [h1]
        · unfold constraintTable
          rw [htc]
          simp [h2]
      · rw [if_neg hcond]
    case _ => rfl

/-- Witness for the C9 theorem at `exDbScope`, exercising the per-table
scoping: the catalog holds an index and a constraint both named
`users_pkey`, but on table `users`; a detail request for that name scoped to
table `orders` satisfies the triple-scoped hypotheses and returns zero rows,
while the same name scoped to `users` does return a row. -/
theorem detail_queries_missing_name_witness :
    (∀ ix ∈ exDbScope.indexes,
      indexSchema exDbScope ix = some ("public") →
      indexTable exDbScope ix = some ("orders") →
      indexName exDbScope ix ≠ some ("users_pkey")) ∧
    (∀ c ∈ exDbScope.constraints,
      constraintSchema exDbScope c = some ("public") →
      constraintTable exDbScope c = some ("orders") →
      c.conname ≠ ("users_pkey" : String)) ∧
    (get_table_indexes exDbScope ("public") ("users")).map
      (fun r => r.index_name) = [("users_pkey")] ∧
    (get_constraint_details exDbScope ("public") ("users")
      ("users_pkey")).map (fun r => r.constraint_name) = [("users_pkey")] ∧
    (get_index_details exDbScope ("public") ("orders") ("users_pkey") = [] ∧
      get_constraint_details exDbScope ("public") ("orders") ("users_pkey") =
        []) := by
  refine ⟨by decide, by decide, rfl, rfl, ?_⟩
  exact detail_queries_missing_name exDbScope ("public") ("orders")
    ("users_pkey") (by decide) (by decide)

/-- Claim C10: the full-database document always is a mapping with the single
top-level key `schemas`; every schema entry has exactly the keys `name`,
`description`, `tables`; every table entry has exactly the keys `name`,
`description`, `row_count`, `columns`, `foreign_keys` (no table-level
constraints list, no index data); and the collection-valued keys always hold
lists, empty lists when empty, never absent keys. -/
theorem db_info_shape_ok (db : Database) : dbInfoDocShape (db_info db) = true := by
  simp only [db_info, dbInfoDocShape, List.all_eq_true]
  intro x hx
  rcases List.mem_map.mp hx with ⟨s, _, rfl⟩
  simp only [schemaJson, schemaEntryShape, Bool.and_eq_true, List.all_eq_true]
  constructor
  · cases s.description <;> rfl
  · intro y hy
    rcases List.mem_map.mp hy with ⟨t, _, rfl⟩
    simp only [tableJson, tableEntryShape]
    cases t.description <;> rfl

/-- Claim C2 (amended): the full-database document's per-table column data
comes from the very query the columns facet runs (the two copies of the SQL
are identical), so column data agrees; but the document embeds no table-level
constraint list and no index data at all (its table entries carry only
per-column constraint-type labels and a separate foreign-key list), so no
agreement with the constraints and indexes facets exists to state beyond
their absence. -/
theorem db_info_columns_agree (db : Database) (schema table : String) :
    dbInfoColumnsQuery db schema table = get_table_columns db schema table ∧
    ∀ t : TableRow,
      jGet (tableJson db schema t) ("columns") =
        some (JValue.arr ((get_table_columns db schema t.table_name).map
          (columnJson (dbInfoConstraintsQuery db schema t.table_name)))) ∧
      jGet (tableJson db schema t) ("indexes") = none ∧
      jGet (tableJson db schema t) ("constraints") = none := by
  refine ⟨rfl, ?_⟩
  intro t
  exact ⟨rfl, rfl, rfl⟩

/-- Claim C2 is false as stated: in `exDbIdx` the table `users` has one
index, which the indexes facet reports (name `users_pkey`, column `id`),
while the table entry of the full-database document contains no index data
(and no table-level constraint list) at all. -/
theorem db_info_omits_index_data_cex :
    ((((jGet (db_info exDbIdx) ("schemas")).bind (fun v => jIdx v 0)).bind
        (fun v => jGet v ("tables"))).bind (fun v => jIdx v 0)).bind
      (fun v => jGet v ("name")) = some (JValue.str ("users")) ∧
    ((((jGet (db_info exDbIdx) ("schemas")).bind (fun v => jIdx v 0)).bind
        (fun v => jGet v ("tables"))).bind (fun v => jIdx v 0)).bind
      (fun v => jGet v ("indexes")) = none ∧
    ((((jGet (db_info exDbIdx) ("schemas")).bind (fun v => jIdx v 0)).bind
        (fun v => jGet v ("tables"))).bind (fun v => jIdx v 0)).bind
      (fun v => jGet v ("constraints")) = none ∧
    (get_table_indexes exDbIdx ("public") ("users")).map
      (fun r => (r.index_name, r.column_names)) =
      [(("users_pkey"), [some ("id")])] := by
  exact ⟨rfl, rfl, rfl, rfl⟩

/-- Claim C3 (amended): `get_table_constraints` and `get_constraint_details`
share the full code-to-label mapping (p, u, f, c, t, x, else OTHER), but the
constraint query inside `db_info` has branches only for p, u, f, c and maps
every other code — in particular `t` and `x` — to OTHER; the two mappings
agree exactly on the codes other than `t` and `x`. -/
theorem contype_mapping_divergence :
    (∀ ch : Char,
      contypeDescDbInfo ch = contypeDescFacet ch ↔ (ch ≠ 't' ∧ ch ≠ 'x')) ∧
    (∀ (db : Database) (s t : String), ∀ r ∈ dbInfoConstraintsQuery db s t,
      r.constraint_type_desc = contypeDescDbInfo r.constraint_type) ∧
    (∀ (db : Database) (s t : String), ∀ r ∈ get_table_constraints db s t,
      r.constraint_type_desc = contypeDescFacet r.constraint_type) ∧
    (∀ (db : Database) (s t nm : String),
      ∀ r ∈ get_constraint_details db s t nm,
      r.constraint_type_desc = contypeDescFacet r.constraint_type) := by
  refine ⟨?_, ?_, ?_, ?_⟩
  · intro ch
    unfold contypeDescDbInfo contypeDescFacet
    split_ifs with h1 h2 h3 h4 h5 h6 <;> simp_all
  · intro db s t r hr
    simp only [dbInfoConstraintsQuery, List.mem_insertionSort] at hr
    rcases List.mem_filterMap.mp hr with ⟨c, _, hsome⟩
    obtain ⟨_, h2, h3, _⟩ := dbInfoConstraintRow?_inv hsome
    rw [h2, h3]
  · intro db s t r hr
    simp only [get_table_constraints, List.mem_insertionSort] at hr
    rcases List.mem_filterMap.mp hr with ⟨c, _, hsome⟩
    obtain ⟨_, h2, h3, _⟩ := facetConstraintRow?_inv hsome
    rw [h2, h3]
  · intro db s t nm r hr
    rcases List.mem_filterMap.mp hr with ⟨c, _, hsome⟩
    obtain ⟨_, h2, h3, _, _⟩ := constraintDetailRow?_inv hsome
    rw [h2, h3]

/-- Witness for the C3 theorem: the mapping-agreement equivalence applied at
the concrete code `p`, and the per-row label fact applied to the one row the
`db_info` constraint query returns over `exDbTrig`. -/
theorem contype_mapping_divergence_witness :
    contypeDescDbInfo 'p' = contypeDescFacet 'p' ∧
    (⟨"trg", 't', "OTHER", [none]⟩ : ConstraintRowDb) ∈
      dbInfoConstraintsQuery exDbTrig ("public") ("events") ∧
    (⟨"trg", 't', "OTHER", [none]⟩ : ConstraintRowDb).constraint_type_desc =
      contypeDescDbInfo 't' := by
  have hm : (⟨"trg", 't', "OTHER", [none]⟩ : ConstraintRowDb) ∈
      dbInfoConstraintsQuery exDbTrig ("public") ("events") := by decide
  exact ⟨(contype_mapping_divergence.1 'p').mpr (by decide), hm,
    contype_mapping_divergence.2.1 exDbTrig ("public") ("events")
      ⟨"trg", 't', "OTHER", [none]⟩ hm⟩

/-- Claim C3 is false as stated: the constraint-trigger constraint `trg`
(`contype = 't'`) of `exDbTrig` is labelled OTHER by the constraint query
inside `db_info` but TRIGGER by the per-table constraints facet. -/
theorem contype_trigger_cex :
    (dbInfoConstraintsQuery exDbTrig ("public") ("events")).map
      (fun r => r.constraint_type_desc) = [("OTHER")] ∧
    (get_table_constraints exDbTrig ("public") ("events")).map
      (fun r => r.constraint_type_desc) = [("TRIGGER")] := by
  exact ⟨rfl, rfl⟩

/-- Claim C4 (amended): a constraint or index whose key-column array is
empty or absent still yields a result row and the aggregation does not fail,
but the aggregated `column_names` is the one-element list holding a single
NULL placeholder (`[none]`), not an empty list: the left-joined lateral
unnest contributes one all-NULL row and `ARRAY_AGG` keeps the NULL. -/
theorem empty_key_rows_returned (db : Database) (schema table : String) :
    (∀ c ∈ db.constraints, ∀ (n : PgNamespace) (tc : PgClass),
      db.namespaces.find? (fun x => x.oid == c.connamespace) = some n →
      db.classes.find? (fun x => x.oid == c.conrelid) = some tc →
      n.nspname = schema → tc.relname = table → c.conkey = [] →
      ∃ r ∈ get_table_constraints db schema table,
        r.constraint_name = c.conname ∧ r.column_names = [none]) ∧
    (∀ ix ∈ db.indexes, ∀ (i tc : PgClass) (n : PgNamespace) (am : PgAm),
      db.classes.find? (fun x => x.oid == ix.indexrelid) = some i →
      db.classes.find? (fun x => x.oid == ix.indrelid) = some tc →
      db.namespaces.find? (fun x => x.oid == tc.relnamespace) = some n →
      db.ams.find? (fun x => x.oid == i.relam) = some am →
      n.nspname = schema → tc.relname = table → ix.indkey = [] →
      ∃ r ∈ get_table_indexes db schema table,
        r.index_name = i.relname ∧ r.column_names = [none]) := by
  constructor
  · intro c hc n tc hn htc hns htr hk
    refine ⟨⟨c.conname, c.contype, contypeDescFacet c.contype,
      db.objDescription c.oid, db.getConstraintDef c.oid, refTableName db c,
      aggNamesByPos (lateralKeyRows db tc.oid c.conkey)⟩, ?_, rfl, ?_⟩
    · simp only [get_table_constraints, List.mem_insertionSort]
      refine List.mem_filterMap.mpr ⟨c, hc, ?_⟩
      unfold facetConstraintRow?
      rw [hn, htc]
      simp [hns, htr]
    · rw [hk]
      exact aggNamesByPos_single
  · intro ix hix i tc n am hi htc hn ham hns htr hk
    refine ⟨⟨i.relname, db.getIndexDef i.oid, db.objDescription i.oid,
      am.amname, aggNamesByPos (lateralKeyRows db tc.oid ix.indkey),
      ix.indisunique, ix.indisprimary, ix.indisexclusion⟩, ?_, rfl, ?_⟩
    · simp only [get_table_indexes, List.mem_insertionSort]
      refine List.mem_filterMap.mpr ⟨ix, hix, ?_⟩
      unfold indexRow?
      rw [hi, htc]
      simp [hn, ham, hns, htr]
    · rw [hk]
      exact aggNamesByPos_single

/-- Witness for the C4 theorem at `exDbChk`: its check constraint `chk` has
an empty key array and its index `t_idx` an empty `indkey`; both rows are
returned with `column_names = [none]`. -/
theorem empty_key_rows_returned_witness :
    (∃ r ∈ get_table_constraints exDbChk ("public") ("t"),
      r.constraint_name = ("chk" : String) ∧ r.column_names = [none]) ∧
    (∃ r ∈ get_table_indexes exDbChk ("public") ("t"),
      r.index_name = ("t_idx" : String) ∧ r.column_names = [none]) := by
  constructor
  · exact (empty_key_rows_returned exDbChk ("public") ("t")).1
      ⟨300, "chk", 'c', 1, 30, 0, [], []⟩ (by decide) ⟨1, "public"⟩
      ⟨30, "t", 1, 0, 0, 0⟩ rfl rfl rfl rfl rfl
  · exact (empty_key_rows_returned exDbChk ("public") ("t")).2
      ⟨31, 30, [], false, false, false, true, false, true⟩ (by decide)
      ⟨31, "t_idx", 1, 40, 0, 0⟩ ⟨30, "t", 1, 0, 0, 0⟩ ⟨1, "public"⟩
      ⟨40, "btree"⟩ rfl rfl rfl rfl rfl rfl rfl
  
/-- Claim C4 is false as stated: the empty-key constraint `chk` of `exDbChk`
aggregates to `[none]` — a one-element list containing a NULL placeholder —
not to the empty list (and likewise the empty-key index `t_idx`). -/
theorem empty_key_null_placeholder_cex :
    (get_table_constraints exDbChk ("public") ("t")).map
      (fun r => r.column_names) = [[none]] ∧
    (get_table_indexes exDbChk ("public") ("t")).map
      (fun r => r.column_names) = [[none]] := by
  exact ⟨rfl, rfl⟩

/-- Claim C6 (amended): for every constraint row of the table-level
constraints facet and of the constraint query inside `db_info`, when the
constraint's key-column array is nonempty the aggregated `column_names` has
exactly its length and its i-th element is the attribute name of the i-th
key entry (ordinal order); when the key-column array is empty or absent the
aggregate is the one-element list `[none]`, not the empty list. -/
theorem constraints_column_names_spec (db : Database) (schema table : String)
    (hwf : attrKeysDistinct db) :
    (∀ r ∈ get_table_constraints db schema table, ∃ c ∈ db.constraints,
      r.constraint_name = c.conname ∧
      (c.conkey ≠ [] → r.column_names = c.conkey.map (attnameAt db c.conrelid)) ∧
      (c.conkey = [] → r.column_names = [none])) ∧
    (∀ r ∈ dbInfoConstraintsQuery db schema table, ∃ c ∈ db.constraints,
      r.constraint_name = c.conname ∧
      (c.conkey ≠ [] → r.column_names = c.conkey.map (attnameAt db c.conrelid)) ∧
      (c.conkey = [] → r.column_names = [none])) := by
  constructor
  · intro r hr
    simp only [get_table_constraints, List.mem_insertionSort] at hr
    rcases List.mem_filterMap.mp hr with ⟨c, hc, hsome⟩
    obtain ⟨h1, _, _, h4⟩ := facetConstraintRow?_inv hsome
    refine ⟨c, hc, h1, ?_, ?_⟩
    · intro hk
      rw [h4, aggNamesByPos_of_lateral hwf hk]
    · intro hk
      rw [h4, hk]
      exact aggNamesByPos_single
  · intro r hr
    simp only [dbInfoConstraintsQuery, List.mem_insertionSort] at hr
    rcases List.mem_filterMap.mp hr with ⟨c, hc, hsome⟩
    obtain ⟨h1, _, _, h4⟩ := dbInfoConstraintRow?_inv hsome
    refine ⟨c, hc, h1, ?_, ?_⟩
    · intro hk
      rw [h4, aggNamesByPos_of_lateral hwf hk]
    · intro hk
      rw [h4, hk]
      exact aggNamesByPos_single

/-- Witness for the C6 theorem at `exDbFk`: the facet row of the two-column
foreign key names columns `o1`, `o2` in key order. -/
theorem constraints_column_names_spec_witness :
    attrKeysDistinct exDbFk ∧
    (∀ r ∈ get_table_constraints exDbFk ("public") ("orders"),
      ∃ c ∈ exDbFk.constraints,
      r.constraint_name = c.conname ∧
      (c.conkey ≠ [] →
        r.column_names = c.conkey.map (attnameAt exDbFk c.conrelid)) ∧
      (c.conkey = [] → r.column_names = [none])) := by
  have hwf : attrKeysDistinct exDbFk := by unfold attrKeysDistinct; decide
  exact ⟨hwf,
    (constraints_column_names_spec exDbFk ("public") ("orders") hwf).1⟩

/-- Claim C6 is false as stated: the check constraint `chk` of `exDbChk` has
zero entries in its key-column array, yet the facet's aggregated
`column_names` has length 1 (the single NULL placeholder). -/
theorem constraints_empty_key_length_cex :
    (get_table_constraints exDbChk ("public") ("t")).map
      (fun r => r.column_names.length) = [1] ∧
    exDbChk.constraints.map (fun c => c.conkey.length) = [0] := by
  exact ⟨rfl, rfl⟩

/-- Claim C1 (amended): in both the `db_info` foreign-key query and the
single-constraint detail query, the two `unnest WITH ORDINALITY` laterals
cross-join, so for a foreign key the local and referenced column lists each
have length `keyLen conkey * keyLen confkey` — the two lists always have
equal length, but that length equals the key-column count only for
single-column foreign keys (PostgreSQL guarantees `conkey` and `confkey`
have the same length n, giving lists of length n^2, each local column
repeated n times in ordinal order). -/
theorem fk_column_lengths (db : Database) (schema table nm : String)
    (hwf : attrKeysDistinct db) :
    (∀ r ∈ dbInfoForeignKeysQuery db schema table, ∃ c ∈ db.constraints,
      c.contype = 'f' ∧ r.constraint_name = c.conname ∧
      r.column_names.length = keyLen c.conkey * keyLen c.confkey ∧
      r.referenced_columns.length = keyLen c.conkey * keyLen c.confkey) ∧
    (∀ r ∈ get_constraint_details db schema table nm, ∃ c ∈ db.constraints,
      r.constraint_name = c.conname ∧
      (c.contype = 'f' →
        r.column_names.length = keyLen c.conkey * keyLen c.confkey ∧
        ∃ rc, r.referenced_columns = some rc ∧
          rc.length = keyLen c.conkey * keyLen c.confkey)) := by
  constructor
  · intro r hr
    simp only [dbInfoForeignKeysQuery, List.mem_insertionSort] at hr
    rcases List.mem_filterMap.mp hr with ⟨c, hc, hsome⟩
    obtain ⟨h1, h2, h3, h4⟩ := dbInfoForeignKeyRow?_inv hsome
    refine ⟨c, hc, h1, h2, ?_, ?_⟩
    · rw [h3, List.length_map, List.length_insertionSort,
        fkJoinRows_length _ _ hwf]
    · rw [h4, List.length_map, List.length_insertionSort,
        fkJoinRows_length _ _ hwf]
  · intro r hr
    rcases List.mem_filterMap.mp hr with ⟨c, hc, hsome⟩
    obtain ⟨h1, _, _, h4, h5⟩ := constraintDetailRow?_inv hsome
    refine ⟨c, hc, h1, ?_⟩
    intro hf
    have hside : detailRefSide db c = lateralKeyRows db c.confrelid c.confkey := by
      unfold detailRefSide
      rw [if_pos hf]
    constructor
    · rw [h4, List.length_map, List.length_insertionSort, hside,
        length_flatMap_prod, lateralKeyRows_length _ hwf,
        lateralKeyRows_length _ hwf]
    · refine ⟨_, by rw [h5, if_pos hf], ?_⟩
      rw [List.length_map, List.length_insertionSort, hside,
        length_flatMap_prod, lateralKeyRows_length _ hwf,
        lateralKeyRows_length _ hwf]

/-- Witness for the C1 theorem at `exDbFk` (a two-column foreign key). -/
theorem fk_column_lengths_witness :
    attrKeysDistinct exDbFk ∧
    (∀ r ∈ dbInfoForeignKeysQuery exDbFk ("public") ("orders"),
      ∃ c ∈ exDbFk.constraints,
      c.contype = 'f' ∧ r.constraint_name = c.conname ∧
      r.column_names.length = keyLen c.conkey * keyLen c.confkey ∧
      r.referenced_columns.length = keyLen c.conkey * keyLen c.confkey) := by
  have hwf : attrKeysDistinct exDbFk := by unfold attrKeysDistinct; decide
  exact ⟨hwf,
    (fk_column_lengths exDbFk ("public") ("orders") ("fk_orders") hwf).1⟩

/-- Claim C1 is false as stated: the two-column foreign key `fk_orders` of
`exDbFk` (`conkey = [1, 2]`, `confkey = [1, 2]`) yields `column_names` and
`referenced_columns` of length 4, not 2, in both the `db_info` foreign-key
query and the constraint-detail query; each local column appears twice. -/
theorem fk_cross_product_cex :
    (dbInfoForeignKeysQuery exDbFk ("public") ("orders")).map
      (fun r => (r.column_names, r.referenced_columns)) =
      [([some ("o1"), some ("o1"), some ("o2"), some ("o2")],
        [some ("c1"), some ("c1"), some ("c2"), some ("c2")])] ∧
    exDbFk.constraints.map (fun c => (c.conkey.length, c.confkey.length)) =
      [(2, 2)] ∧
    (get_constraint_details exDbFk ("public") ("orders") ("fk_orders")).map
      (fun r => (r.column_names.length, r.referenced_columns.map
        (fun rc => rc.length))) = [(4, some 4)] := by
  exact ⟨rfl, rfl, rfl⟩

/-- Claim C5 (amended): a schema name appears in the schemas listing (and in
the `db_info` schema enumeration, which runs the identical query) exactly
once if and only if it is a catalog schema name, is none of `pg_catalog`,
`information_schema`, `pg_toast`, and does not match the SQL pattern
`pg_%` — in which the `_` is a single-character wildcard, so every name
whose first two characters are `pg` followed by at least one further
character is excluded (for example `pgfoo`), not only names starting with
the literal three characters `pg_`. -/
theorem list_schemas_membership (db : Database) (n : String)
    (hnd : db.schemata.Nodup)
    (hns : ∀ s ∈ db.schemata,
      (db.namespaces.filter (fun x => x.nspname == s)).length = 1) :
    ((list_schemas db).map (fun r => r.schema_name)).count n =
      (if n ∈ db.schemata ∧ schemaAllowed n = true then 1 else 0) ∧
    dbInfoSchemasQuery db = list_schemas db := by
  refine ⟨?_, rfl⟩
  rw [count_map_eq_countP]
  unfold list_schemas
  rw [(List.perm_insertionSort _ _).countP_eq]
  rw [List.countP_filter]
  have hext1 : ∀ r : SchemaRow,
      ((r.schema_name == n) && schemaAllowed r.schema_name) =
        ((r.schema_name == n) && schemaAllowed n) := by
    intro r
    by_cases h : r.schema_name = n
    · rw [h]
    · rw [beq_eq_false_iff_ne.mpr h, Bool.false_and, Bool.false_and]
  rw [countP_ext _ _ _ hext1]
  by_cases hall : schemaAllowed n = true
  · have hext2 : ∀ r : SchemaRow,
        ((r.schema_name == n) && schemaAllowed n) = (r.schema_name == n) := by
      intro r
      rw [hall, Bool.and_true]
    rw [countP_ext _ _ _ hext2, countP_flatMap]
    have hinner : ∀ s ∈ db.schemata,
        (((db.namespaces.filter (fun x => x.nspname == s)).map
            (fun ns => (⟨s, db.objDescription ns.oid⟩ : SchemaRow))).countP
          (fun r => r.schema_name == n)) = if s = n then 1 else 0 := by
      intro s hs
      rw [List.countP_map]
      by_cases hsn : s = n
      · have : ((fun r : SchemaRow => r.schema_name == n) ∘
            (fun ns : PgNamespace =>
              (⟨s, db.objDescription ns.oid⟩ : SchemaRow))) =
            (fun _ : PgNamespace => true) := by
          funext ns
          simp [hsn]
        rw [this, countP_const_true, hns s hs, if_pos hsn]
      · have : ((fun r : SchemaRow => r.schema_name == n) ∘
            (fun ns : PgNamespace =>
              (⟨s, db.objDescription ns.oid⟩ : SchemaRow))) =
            (fun _ : PgNamespace => false) := by
          funext ns
          simp [hsn]
        rw [this, countP_const_false, if_neg hsn]
    rw [List.map_congr_left hinner, sum_indicator_eq_count]
    by_cases hm : n ∈ db.schemata
    · rw [List.count_eq_one_of_mem hnd hm, if_pos ⟨hm, hall⟩]
    · rw [List.count_eq_zero_of_not_mem hm, if_neg (fun h => hm h.1)]
  · have hfalse : schemaAllowed n = false := by
      revert hall
      cases schemaAllowed n <;> simp
    have hext3 : ∀ r : SchemaRow,
        ((r.schema_name == n) && schemaAllowed n) = false := by
      intro r
      rw [hfalse, Bool.and_false]
    rw [countP_ext _ _ _ hext3, countP_const_false,
      if_neg (fun h => hall h.2)]

/-- Witness for the C5 theorem at `exDbIdx` and the allowed name `public`,
which appears exactly once. -/
theorem list_schemas_membership_witness :
    exDbIdx.schemata.Nodup ∧
    ((list_schemas exDbIdx).map (fun r => r.schema_name)).count ("public") =
      (if ("public" : String) ∈ exDbIdx.schemata ∧
          schemaAllowed ("public") = true then 1 else 0) := by
  refine ⟨by decide, ?_⟩
  exact (list_schemas_membership exDbIdx ("public") (by decide)
    (by decide)).1

/-- Claim C5 is false as stated: the schema `pgfoo` of `exDbPg` is none of
the three excluded names and does not begin with the three-character string
`pg_`, yet the schemas listing returns nothing, because the SQL pattern
`pg_%` treats `_` as a wildcard and matches `pgfoo`. -/
theorem list_schemas_pgfoo_cex :
    ("pgfoo" : String) ∈ exDbPg.schemata ∧
    ("pgfoo" : String) ≠ "pg_catalog" ∧
    ("pgfoo" : String) ≠ "information_schema" ∧
    ("pgfoo" : String) ≠ "pg_toast" ∧
    ("pg_".toList.isPrefixOf ("pgfoo".toList)) = false ∧
    likeMatchS ("pg_%") ("pgfoo") = true ∧
    list_schemas exDbPg = [] := by
  exact ⟨by decide, by decide, by decide, by decide, rfl, rfl, rfl⟩
